import Mathlib

/-!
Verification development for the GapSign air-gapped signing engine.

The definitions below are a shallow embedding of the TypeScript sources:
  - src/utils/ethSignature.ts   (signature assembly, CBOR response encoding)
  - src/utils/ur.ts             (request decoding, derivation-path rendering)
  - src/screens/KeycardScreen.tsx (prepareHash)
  - src/hooks/useKeycardOperation.ts (card session state machine)

Byte arrays (Uint8Array / Buffer) are modelled as List Nat (each entry a
byte value).  External libraries (secp256k1 recovery, keccak, the BERTLV
reader of keycard-sdk, the UR encoder, CBOR.decode of cbor-sync) are not
code of this repository; they are abstracted as function parameters or as
already-performed steps, exactly at the call boundary.
-/

namespace GapSign

/-! ## ethSignature.ts helpers -/

/-- Value of a single hex digit accepted by JS parseInt(·, 16):
digits 0-9, lowercase a-f, uppercase A-F (argument is the char code). -/
def hexDigitVal (c : Nat) : Option Nat :=
  if 48 ≤ c ∧ c ≤ 57 then some (c - 48)
  else if 97 ≤ c ∧ c ≤ 102 then some (c - 87)
  else if 65 ≤ c ∧ c ≤ 70 then some (c - 55)
  else none

/-- JS parseInt(two-char slice, 16) followed by the Uint8Array store:
both digits valid gives the byte, a valid first digit alone gives its
value (parseInt parses the longest valid prefix), no valid prefix gives
NaN which the Uint8Array store turns into 0.  (the tolerance of parseInt for
leading whitespace or sign characters is not modelled; request ids are
UUID strings.) -/
def jsParseHexPair (c1 c2 : Nat) : Nat :=
  match hexDigitVal c1 with
  | none => 0
  | some d1 =>
    match hexDigitVal c2 with
    | none => d1
    | some d2 => 16 * d1 + d2

/-- Successive two-char groups of hexToBytes (char codes in, bytes out). -/
def hexPairsToBytes : List Nat → List Nat
  | c1 :: c2 :: rest => jsParseHexPair c1 c2 :: hexPairsToBytes rest
  | _ => []

/-- hexToBytes of ethSignature.ts.  new Uint8Array(hex.length / 2) throws a
RangeError for odd-length input (fractional typed-array length), modelled
as none. -/
def hexToBytes (s : String) : Option (List Nat) :=
  if (s.toList.map Char.toNat).length % 2 = 0 then
    some (hexPairsToBytes (s.toList.map Char.toNat))
  else none

/-- derIntTo32 of ethSignature.ts: strip one leading zero byte, return as
is when exactly 32 bytes remain, otherwise left-pad with zeros to 32
bytes.  When more than 32 bytes remain, padded.set is called with a
negative offset and throws a RangeError, modelled as none. -/
def derIntTo32 (arr : List Nat) : Option (List Nat) :=
  let stripped := if arr.head? = some 0 then arr.tail else arr
  if stripped.length = 32 then some stripped
  else if stripped.length < 32 then
    some (List.replicate (32 - stripped.length) 0 ++ stripped)
  else none

/-- compressPubKey of ethSignature.ts: x = bytes 1..32, y = bytes 33..64
of the uncompressed key; the prefix byte is 2 when the last byte of y is
even and 3 otherwise (a missing index reads as undefined, and
undefined & 1 is 0 in JS, hence the default 0); the 33-byte output is the
prefix followed by x placed at offset 1 of a zero-initialised buffer. -/
def compressPubKey (uncompressed : List Nat) : List Nat :=
  let x := (uncompressed.drop 1).take 32
  let y := (uncompressed.drop 33).take 32
  let pfx := if (y.getD 31 0) % 2 = 0 then 2 else 3
  pfx :: (x ++ List.replicate (32 - x.length) 0)

/-- uuidToBytes of ethSignature.ts: remove all dashes (char code 45) and
hex-decode. -/
def uuidToBytes (uuid : String) : Option (List Nat) :=
  hexToBytes (String.mk (uuid.toList.filter (fun c => c.toNat ≠ 45)))

/-- encodeV of ethSignature.ts: minimal big-endian encoding in 1 to 4
bytes.  The byte extractions (v >> k) & 0xff operate on ToInt32(v), which
for the 4-byte branch equals taking v mod 2^32 first. -/
def encodeV (v : Nat) : List Nat :=
  if v ≤ 0xff then [v]
  else if v ≤ 0xffff then [v / 256 % 256, v % 256]
  else if v ≤ 0xffffff then [v / 65536 % 256, v / 256 % 256, v % 256]
  else [v % 2 ^ 32 / 2 ^ 24, v / 65536 % 256, v / 256 % 256, v % 256]

/-- The recovery-byte switch of buildEthSignatureUR (lines 222-232):
case 1 gives 35 + 2 * (chainId ?? 0) + recId, case 4 gives recId, every
other (or absent) dataType falls to the default 27 + recId. -/
def computeV (dataType chainId : Option Nat) (recId : Nat) : Nat :=
  match dataType with
  | some n =>
    if n = 1 then 35 + 2 * chainId.getD 0 + recId
    else if n = 4 then recId
    else 27 + recId
  | none => 27 + recId

/-! ## CBOR response encoding (ethSignature.ts) -/

/-- cborUint: keys 1, 2, 3 are written as a single raw byte. -/
def cborUint (n : Nat) : List Nat := [n]

/-- cborBytes: major type 2 with small (≤ 23), one-byte (≤ 0xff) or
two-byte length header. -/
def cborBytes (data : List Nat) : List Nat :=
  (if data.length ≤ 23 then [0x40 + data.length]
   else if data.length ≤ 0xff then [0x58, data.length]
   else [0x59, data.length / 256 % 256, data.length % 256]) ++ data

/-- cborText: major type 3; the argument is the list of char codes of the
JS string (charCodeAt applied to each position).  The one-byte-length
branch stores bytes.length into a Uint8Array slot, hence mod 256. -/
def cborText (bytes : List Nat) : List Nat :=
  (if bytes.length ≤ 23 then [0x60 + bytes.length]
   else [0x78, bytes.length % 256]) ++ bytes

/-- Char codes of the fixed origin string written by buildCbor
(charCodeAt over the seven chars G a p S i g n). -/
def gapSignOrigin : List Nat := [71, 97, 112, 83, 105, 103, 110]

/-- cborTag37Bytes: tag header d8 25 followed by the byte string. -/
def cborTag37Bytes (data : List Nat) : List Nat :=
  [0xd8, 0x25] ++ cborBytes data

/-- The hasRequestId test of buildCbor: defined and non-empty. -/
def hasRequestId : Option String → Bool
  | some s => s.length > 0
  | none => false

/-- buildCbor of ethSignature.ts: map header a0 | size (the mapSize 3 or
2, selected by hasRequestId, is inlined into the header literal of each
branch), then optionally key 1 with the tagged UUID, then key 2 with the
signature bytes and key 3 with the origin text.  uuidToBytes throwing
(odd-length hex) is modelled as none. -/
def buildCbor (sig : List Nat) (requestId : Option String) : Option (List Nat) :=
  if hasRequestId requestId then
    match uuidToBytes (requestId.getD ("")) with
    | some idBytes =>
        some ([0xa0 + 3] ++ cborUint 1 ++ cborTag37Bytes idBytes ++
          cborUint 2 ++ cborBytes sig ++ cborUint 3 ++ cborText gapSignOrigin)
    | none => none
  else
    some ([0xa0 + 2] ++ cborUint 2 ++ cborBytes sig ++ cborUint 3 ++
      cborText gapSignOrigin)

/-! ## Signature assembly (buildEthSignatureUR) -/

/-- Result record of a successful assembly: the normalized scalars, the
chosen recovery id, the recovery byte, and the CBOR payload that is handed
to the UR encoder. -/
structure EthSigResult where
  r : List Nat
  s : List Nat
  recId : Nat
  v : Nat
  cbor : List Nat
  deriving DecidableEq

/-- The recId loop of buildEthSignatureUR (lines 204-219): try the
candidate recoverable signatures 0‖r‖s and 1‖r‖s in order; an exception
from secp.recoverPublicKey propagates; the first candidate whose recovered
key equals the compressed public key wins; no match throws the hard
error. -/
def findRecId (recover : List Nat → List Nat → Except String (List Nat))
    (compact hash compressed : List Nat) : Except String Nat :=
  match recover (0 :: compact) hash with
  | Except.error m => Except.error m
  | Except.ok c0 =>
    if c0 = compressed then Except.ok 0
    else
      match recover (1 :: compact) hash with
      | Except.error m => Except.error m
      | Except.ok c1 =>
        if c1 = compressed then Except.ok 1
        else Except.error ("[ethSignature] Cannot determine recovery ID")

/-- buildEthSignatureUR of ethSignature.ts, starting from the values read
out of the BERTLV response (the TLV walk itself is performed by the
keycard-sdk library): normalize r and s, compress the public key,
determine the recovery id by trial recovery (recover abstracts
secp.recoverPublicKey against the signed hash), compute v, and CBOR-encode
r‖s‖v.  The final wrapping of the CBOR bytes into a ur:eth-signature
string is done by the external UR encoder and is not part of the model. -/
def buildEthSignatureUR
    (recover : List Nat → List Nat → Except String (List Nat))
    (pubKeyRaw rDer sDer hash : List Nat)
    (dataType chainId : Option Nat) (requestId : Option String) :
    Except String EthSigResult :=
  match derIntTo32 rDer with
  | none => Except.error ("RangeError: offset is out of bounds")
  | some r =>
    match derIntTo32 sDer with
    | none => Except.error ("RangeError: offset is out of bounds")
    | some s =>
      match findRecId recover (r ++ s) hash (compressPubKey pubKeyRaw) with
      | Except.error m => Except.error m
      | Except.ok recId =>
        match buildCbor (r ++ s ++ encodeV (computeV dataType chainId recId))
            requestId with
        | some cbor => Except.ok ⟨r, s, recId, computeV dataType chainId recId, cbor⟩
        | none => Except.error ("RangeError: invalid typed array length")

/-- Big-endian value of a byte sequence (used to state that derIntTo32
preserves the represented integer). -/
def beVal (l : List Nat) : Nat := l.foldl (fun a b => 256 * a + b) 0

/-! ## Decoder for the response binary-map rules

The repository itself never decodes its own response (its tests use an
external CBOR library); the decoder below follows the binary-map
rules for the subset of CBOR that buildCbor emits — a small map of
small-uint keys whose values are byte strings, text strings, or a tagged
byte string — and is the spec-side half of the round-trip claim. -/

/-- A decoded CBOR value of the response subset. -/
inductive CborVal where
  | bytes (data : List Nat) : CborVal
  | text (codes : List Nat) : CborVal
  | tagged (tag : Nat) (val : CborVal) : CborVal
  deriving DecidableEq

/-- Split off exactly n bytes, failing when fewer are available. -/
def takeN (n : Nat) (l : List Nat) : Option (List Nat × List Nat) :=
  if n ≤ l.length then some (l.take n, l.drop n) else none

/-- Decode one untagged byte- or text-string item (major types 2 and 3
with the small, one-byte and two-byte length forms that buildCbor can
produce). -/
def decodePrim (l : List Nat) : Option (CborVal × List Nat) :=
  match l with
  | [] => none
  | b :: rest =>
    if 0x40 ≤ b ∧ b ≤ 0x57 then
      (takeN (b - 0x40) rest).map (fun p => (CborVal.bytes p.1, p.2))
    else if b = 0x58 then
      match rest with
      | n :: r2 => (takeN n r2).map (fun p => (CborVal.bytes p.1, p.2))
      | [] => none
    else if b = 0x59 then
      match rest with
      | n1 :: n2 :: r2 =>
        (takeN (n1 * 256 + n2) r2).map (fun p => (CborVal.bytes p.1, p.2))
      | _ => none
    else if 0x60 ≤ b ∧ b ≤ 0x77 then
      (takeN (b - 0x60) rest).map (fun p => (CborVal.text p.1, p.2))
    else if b = 0x78 then
      match rest with
      | n :: r2 => (takeN n r2).map (fun p => (CborVal.text p.1, p.2))
      | [] => none
    else none

/-- Decode one item, allowing a one-byte tag header (major type 6, d8)
in front of a primitive item. -/
def decodeItem (l : List Nat) : Option (CborVal × List Nat) :=
  match l with
  | [] => none
  | b :: rest =>
    if b = 0xd8 then
      match rest with
      | t :: r2 => (decodePrim r2).map (fun p => (CborVal.tagged t p.1, p.2))
      | [] => none
    else decodePrim (b :: rest)

/-- Decode one small-uint map key. -/
def decodeUintKey (l : List Nat) : Option (Nat × List Nat) :=
  match l with
  | [] => none
  | b :: rest => if b ≤ 23 then some (b, rest) else none

/-- Decode exactly n key-value pairs and require the input to be fully
consumed. -/
def decodePairs : Nat → List Nat → Option (List (Nat × CborVal))
  | 0, [] => some []
  | 0, _ :: _ => none
  | n + 1, l =>
    match decodeUintKey l with
    | none => none
    | some (k, l1) =>
      match decodeItem l1 with
      | none => none
      | some (v, l2) => (decodePairs n l2).map (fun ps => (k, v) :: ps)

/-- Decode a whole small map (header byte a0 | size) into its pair
list. -/
def decodeResponseMap (l : List Nat) : Option (List (Nat × CborVal)) :=
  match l with
  | [] => none
  | b :: rest =>
    if 0xa0 ≤ b ∧ b ≤ 0xb7 then decodePairs (b - 0xa0) rest else none

/-! ## Request decoding (src/utils/ur.ts)

CBOR.decode of cbor-sync hands parseEthSignRequest a plain JS value:
integer-keyed maps become objects (whose numeric and string index
accesses hit the same property), byte strings become Buffers, tagged
values become objects with a value property.  JSVal models that decoded
value domain. -/

/-- A decoded JS value as produced by cbor-sync. -/
inductive JSVal where
  | undef : JSVal
  | jsNull : JSVal
  | num (n : Int) : JSVal
  | str (s : String) : JSVal
  | bool (b : Bool) : JSVal
  | bytes (data : List Nat) : JSVal
  | arr (elems : List JSVal) : JSVal
  | obj (fields : List (Nat × JSVal)) : JSVal
  | tagged (tag : Nat) (val : JSVal) : JSVal

/-- JS truthiness: undefined, null, 0, the empty string and false are
falsy; every object (including an empty array or map) is truthy. -/
def truthy : JSVal → Bool
  | JSVal.undef => false
  | JSVal.jsNull => false
  | JSVal.num n => n ≠ 0
  | JSVal.str s => s ≠ ""
  | JSVal.bool b => b
  | _ => true

/-- typeof x === an object type (null, Buffers, arrays, plain objects and
tagged-value objects all report object). -/
def typeofObject : JSVal → Bool
  | JSVal.jsNull => true
  | JSVal.bytes _ => true
  | JSVal.arr _ => true
  | JSVal.obj _ => true
  | JSVal.tagged _ _ => true
  | _ => false

/-- Property access x[k] for a small-integer key k: array and Buffer
index, object key lookup (obj[3] and obj[3 as string] are the same
property in JS), single-char string index; everything else reads as
undefined. -/
def jsIndex (v : JSVal) (k : Nat) : JSVal :=
  match v with
  | JSVal.arr l => (l.get? k).getD JSVal.undef
  | JSVal.obj fields =>
    match fields.lookup k with
    | some x => x
    | none => JSVal.undef
  | JSVal.bytes d =>
    match d.get? k with
    | some b => JSVal.num b
    | none => JSVal.undef
  | JSVal.str s =>
    match s.toList.get? k with
    | some c => JSVal.str (String.mk [c])
    | none => JSVal.undef
  | _ => JSVal.undef

/-- Optional-chained property access x?.value: a tagged cbor-sync value
exposes its payload there; any other non-nullish value has no value
property and reads undefined. -/
def jsOptValue : JSVal → JSVal
  | JSVal.tagged _ v => v
  | _ => JSVal.undef

/-- The nullish-coalescing operator a ?? b. -/
def jsNullish (a b : JSVal) : JSVal :=
  match a with
  | JSVal.undef => b
  | JSVal.jsNull => b
  | _ => a

mutual

/-- JS template stringification of the values that can appear in a
derivation-path component slot.  Integers, strings, booleans, undefined
and null follow String(x) exactly; arrays stringify element-wise with
commas; plain objects and tagged values give the generic object form;
Buffer stringification (UTF-8 text decoding) is approximated by the char
codes. -/
def jsToString : JSVal → String
  | JSVal.undef => "undefined"
  | JSVal.jsNull => "null"
  | JSVal.num n => toString n
  | JSVal.str s => s
  | JSVal.bool b => if b then ("true") else ("false")
  | JSVal.bytes d => String.mk (d.map Char.ofNat)
  | JSVal.arr l => String.intercalate (",") (jsToStringList l)
  | JSVal.obj _ => "[object Object]"
  | JSVal.tagged _ _ => "[object Object]"

def jsToStringList : List JSVal → List String
  | [] => []
  | x :: xs => jsToString x :: jsToStringList xs

end

/-- The component loop of parseDerivationPath: pairs are consumed two at
a time; the rendered part is the stringified index followed by the
hardened marker exactly when the flag slot is truthy (an odd tail reads
its missing flag as undefined, which is falsy). -/
def renderComponents : List JSVal → List String
  | [] => []
  | [x] => [jsToString x]
  | x :: y :: rest =>
    (jsToString x ++ (if truthy y then ("\x27") else (""))) :: renderComponents rest

/-- The pathMap binding of parseDerivationPath: tagged?.value ?? tagged
(the optional chaining makes a nullish receiver read as undefined before
the coalescing falls back to the receiver itself). -/
def pathMapOf (tagged : JSVal) : JSVal :=
  jsNullish (match tagged with
    | JSVal.undef => JSVal.undef
    | JSVal.jsNull => JSVal.undef
    | t => jsOptValue t) tagged

/-- The components binding of parseDerivationPath:
pathMap[1] || pathMap.get?.(1).  The second read is undefined for the
plain objects cbor-sync produces (they have no get method), so a falsy
first read leaves undefined. -/
def componentsRead (tagged : JSVal) : JSVal :=
  if truthy (jsIndex (pathMapOf tagged) 1) then jsIndex (pathMapOf tagged) 1
  else JSVal.undef

/-- parseDerivationPath of ur.ts: unwrap tagged?.value ?? tagged, reject
non-object or falsy path maps and non-array component fields with the
sentinel, then render the component pairs joined by slashes after the
m/ prefix. -/
def parseDerivationPath (tagged : JSVal) : String :=
  if ¬ truthy (pathMapOf tagged) ∨ ¬ typeofObject (pathMapOf tagged) then ("unknown")
  else
    match componentsRead tagged with
    | JSVal.arr l => "m/" ++ String.intercalate ("/") (renderComponents l)
    | _ => "unknown"

/-- Lowercase hex rendering of a Buffer (buf.toString with the hex
encoding). -/
def bytesToHexStr (d : List Nat) : String :=
  String.mk (d.foldr (fun b acc =>
    (Nat.toDigits 16 (b / 16 % 16)).headD (Char.ofNat 48) ::
    (Nat.toDigits 16 (b % 16)).headD (Char.ofNat 48) :: acc) [])

/-- The decoded request record built by parseEthSignRequest. -/
structure EthSignRequest where
  signData : String
  dataType : Int
  requestId : Option String
  chainId : Option Int
  derivationPath : String
  address : Option String
  origin : Option String

/-- parseEthSignRequest of ur.ts, starting from the value CBOR.decode
produced (the external decode step itself throwing is handled one level
up, in handleUR).  Each field follows the source line for line; the
x || x-as-string-key double reads collapse because both hit the same
property of the decoded object. -/
def parseEthSignRequest (decoded : JSVal) : EthSignRequest :=
  let signData := jsIndex decoded 2
  let dataType := jsIndex decoded 3
  let requestId := jsIndex decoded 1
  let chainId := jsIndex decoded 4
  let derivationPathRaw := jsIndex decoded 5
  let address := jsIndex decoded 6
  let origin := jsIndex decoded 7
  { signData :=
      match signData with
      | JSVal.bytes d => bytesToHexStr d
      | v => jsToString v
    dataType :=
      match dataType with
      | JSVal.num n => n
      | _ => 1
    requestId :=
      if truthy requestId then
        some (match requestId with
          | JSVal.bytes d => bytesToHexStr d
          | v => jsToString v)
      else none
    chainId :=
      match chainId with
      | JSVal.num n => some n
      | _ => none
    derivationPath := parseDerivationPath derivationPathRaw
    address :=
      if truthy address then
        some (match address with
          | JSVal.bytes d => "0x" ++ bytesToHexStr d
          | v => jsToString v)
      else none
    origin :=
      match origin with
      | JSVal.str s => some s
      | _ => none }

/-! ## prepareHash (src/screens/KeycardScreen.tsx) -/

/-- Buffer.from(s, hex): consume two-char groups while both chars are hex
digits, stopping (and dropping the rest, including a trailing odd char)
at the first invalid group. -/
def bufferFromHexList : List Char → List Nat
  | c1 :: c2 :: rest =>
    match hexDigitVal c1.toNat, hexDigitVal c2.toNat with
    | some d1, some d2 => (16 * d1 + d2) :: bufferFromHexList rest
    | _, _ => []
  | _ => []

/-- Buffer.from(signData, hex) as used by prepareHash. -/
def bufferFromHex (s : String) : List Nat := bufferFromHexList s.toList

/-- prepareHash of KeycardScreen.tsx: keccak_256 (external library,
abstracted as the keccak parameter) over the hex-decoded bytes exactly
for dataType 1 or 4; any other dataType passes the decoded bytes
through unchanged. -/
def prepareHash (keccak : List Nat → List Nat) (signData : String)
    (dataType : Option Nat) : List Nat :=
  let raw := bufferFromHex signData
  if dataType = some 1 ∨ dataType = some 4 then keccak raw else raw

/-! ## Card session state machine (src/hooks/useKeycardOperation.ts)

The mutable cell contents of the hook form the session state; each event
handler is a state-to-state function.  The hardware and storage
collaborators (select, autoPair, savePairing, autoOpenSecureChannel,
verifyPIN with checkAuthOK, and the stored operation closure) perform
asynchronous exchanges whose outcomes are supplied by a CardEnv record:
an error value stands for the await rejecting (or a status-check method
throwing), carrying the exception message. -/

/-- The phase values of the hook. -/
inductive Phase where
  | idle
  | pinEntry
  | nfc
  | done
  | error
  deriving DecidableEq

/-- The state of the hook: phase and status (useState), plus the ref cells —
the result, the active Commandset/channel reference (modelled by whether
it is non-null), the buffered PIN, whether an operation closure is
stored, the requiresPin flag, and the re-entrancy guard. -/
structure SessionState where
  phase : Phase
  status : String
  result : Option Nat
  cmdSet : Bool
  pin : String
  hasOperation : Bool
  requiresPin : Bool
  operationRunning : Bool
  deriving DecidableEq

/-- Outcomes of the collaborator calls made during one card-connected
handling.  loadPairing never rejects (load failures read as no pairing),
so it is a plain Bool. -/
structure CardEnv where
  selectOutcome : Except String Nat
  hasAppInfo : Bool
  pairingFound : Bool
  autoPairOutcome : Except String Unit
  savePairingOutcome : Except String Unit
  openChannelOutcome : Except String Unit
  verifyOutcome : Except String Unit
  opOutcome : Except String Nat

/-- The catch block shared by handleCardConnected and runOperation:
status Error: message, phase error, channel reference nulled. -/
def connFail (m : String) (s : SessionState) : SessionState :=
  { s with status := "Error: " ++ m, phase := Phase.error, cmdSet := false }

/-- runOperation: bail out when already running, no stored operation, or
no channel; otherwise set status, run the closure, store the result and
move to done on success, or fail into error with the channel nulled.
The guard flag is set for the duration of the closure and reset in the
finally block, so its net value on exit is false. -/
def runOperation (env : CardEnv) (s : SessionState) : SessionState :=
  if s.operationRunning ∨ ¬ s.hasOperation ∨ ¬ s.cmdSet then s
  else
    let s1 := { s with status := "Processing..." }
    match env.opOutcome with
    | Except.ok r =>
      { s1 with result := some r, phase := Phase.done, operationRunning := false }
    | Except.error m =>
      { connFail m s1 with operationRunning := false }

/-- The tail of handleCardConnected after pairing is in place (split out
of the handler for readability): open the secure channel, then — when a
PIN is required — verify it, clearing the PIN buffer only after the
verification call and its status check both succeed, and finally invoke
runOperation.  A rejection anywhere lands in the catch block of the handler
with the PIN buffer untouched. -/
def afterPairing (env : CardEnv) (s2 : SessionState) : SessionState :=
  match env.openChannelOutcome with
  | Except.error m => connFail m s2
  | Except.ok _ =>
    if s2.requiresPin then
      let s3 := { s2 with status := "Verifying PIN..." }
      match env.verifyOutcome with
      | Except.error m => connFail m s3
      | Except.ok _ => runOperation env { s3 with pin := "" }
    else runOperation env s2

/-- handleCardConnected (lines 75-143): create the channel and command
set, select the applet (hard failure on a rejected select, a non-9000
status word, or missing application info), load or establish the pairing,
then hand over to afterPairing.  Every failure path runs the catch block
(connFail) over the state as it stood when the exception was raised. -/
def handleCardConnected (env : CardEnv) (s : SessionState) : SessionState :=
  let s1 := { s with status := "Selecting applet...", cmdSet := true }
  match env.selectOutcome with
  | Except.error m => connFail m s1
  | Except.ok sw =>
    if sw ≠ 0x9000 then
      connFail ("SELECT failed: 0x" ++
        String.mk ((Nat.toDigits 16 sw).map Char.toUpper)) s1
    else if ¬ env.hasAppInfo then
      connFail ("No application info in SELECT response") s1
    else if env.pairingFound then
      afterPairing env { s1 with status := "Opening secure channel..." }
    else
      let sp := { s1 with status := "Pairing with card..." }
      match env.autoPairOutcome with
      | Except.error m => connFail m sp
      | Except.ok _ =>
        match env.savePairingOutcome with
        | Except.error m => connFail m sp
        | Except.ok _ =>
          afterPairing env { sp with status := "Opening secure channel..." }

/-- handleCardDisconnected (lines 145-156): null the channel reference;
the phase updater keeps the previous phase in every case and refreshes
the status only when that phase is nfc. -/
def handleCardDisconnected (s : SessionState) : SessionState :=
  let s1 := { s with cmdSet := false }
  if s1.phase = Phase.nfc then
    { s1 with status := "Card removed — tap again" }
  else s1

/-! ## Derived views used in theorem statements -/

/-- The exact guard structure of parseDerivationPath, as a partial view:
the component list when every structural check passes, none when any
check fails (and the sentinel is returned). -/
def pathComponents (t : JSVal) : Option (List JSVal) :=
  if ¬ truthy (pathMapOf t) ∨ ¬ typeofObject (pathMapOf t) then none
  else
    match componentsRead t with
    | JSVal.arr l => some l
    | _ => none

/-- The leading-zero-stripped view of a DER integer, matching the first
line of derIntTo32. -/
def derStripped (arr : List Nat) : List Nat :=
  if arr.head? = some 0 then arr.tail else arr

/-! ## Concrete fixtures used by the witness theorems -/

/-- A 65-byte uncompressed public key placeholder. -/
def wPub : List Nat := List.replicate 65 0

/-- Its compression. -/
def wCompressed : List Nat := compressPubKey wPub

/-- A 32-byte hash placeholder. -/
def wHash : List Nat := List.replicate 32 171

/-- A recovery oracle whose candidate-0 key matches wCompressed. -/
def wRecoverMatch0 : List Nat → List Nat → Except String (List Nat) :=
  fun sig _ => if sig.head? = some 0 then Except.ok wCompressed else Except.ok [9]

/-- A recovery oracle matching neither candidate. -/
def wRecoverNoMatch : List Nat → List Nat → Except String (List Nat) :=
  fun _ _ => Except.ok [9]

/-- The assembled result on the matching fixture. -/
def wSigResult : EthSigResult :=
  match buildEthSignatureUR wRecoverMatch0 wPub [1] [2] wHash (some 1) (some 5) none with
  | Except.ok r => r
  | Except.error _ => ⟨[], [], 0, 0, []⟩

/-- Session-state fixture sitting in the nfc phase with a buffered PIN. -/
def wNfcState : SessionState :=
  { phase := Phase.nfc, status := "Tap your Keycard", result := none,
    cmdSet := false, pin := "123456", hasOperation := true,
    requiresPin := true, operationRunning := false }

/-- Environment in which every card exchange succeeds except PIN
verification. -/
def wEnvPinFail : CardEnv :=
  { selectOutcome := Except.ok 0x9000, hasAppInfo := true,
    pairingFound := true, autoPairOutcome := Except.ok (),
    savePairingOutcome := Except.ok (), openChannelOutcome := Except.ok (),
    verifyOutcome := Except.error ("Invalid PIN"), opOutcome := Except.ok 7 }

/-- Environment in which every card exchange succeeds. -/
def wEnvAllOk : CardEnv :=
  { selectOutcome := Except.ok 0x9000, hasAppInfo := true,
    pairingFound := true, autoPairOutcome := Except.ok (),
    savePairingOutcome := Except.ok (), openChannelOutcome := Except.ok (),
    verifyOutcome := Except.ok (), opOutcome := Except.ok 7 }

/-- Response-map fixtures for the round-trip witnesses. -/
def w6r : List Nat := List.replicate 32 1

def w6s : List Nat := List.replicate 32 2

def w6uuid : String := "0102030405060708090a0b0c0d0e0f10"

/-- The encoded response on the round-trip fixture. -/
def w6cbor : List Nat :=
  (buildCbor (w6r ++ w6s ++ encodeV 27) (some w6uuid)).getD []

/-- The encoded response on the no-request-id fixture. -/
def w7cbor : List Nat := (buildCbor (w6r ++ w6s ++ encodeV 0) none).getD []

/-! # Theorems -/

theorem beVal_cons_zero (l : List Nat) : beVal (0 :: l) = beVal l := rfl

theorem beVal_replicate_zero (k : Nat) (l : List Nat) :
    beVal (List.replicate k 0 ++ l) = beVal l := by
  induction k with
  | zero => rfl
  | succ n ih => rw [List.replicate_succ, List.cons_append, beVal_cons_zero, ih]

theorem beVal_derStripped (arr : List Nat) : beVal (derStripped arr) = beVal arr := by
  unfold derStripped
  cases arr with
  | nil => rfl
  | cons a t =>
    by_cases ha : a = 0
    · subst ha; simp [beVal_cons_zero]
    · simp [ha]

/-- C9: for a DER integer whose leading-zero-stripped form has at most 32
bytes, derIntTo32 returns exactly 32 bytes — the optional leading zero
padding byte is stripped and the remainder left-padded with zeros to a
32-byte big-endian field — preserving the represented integer value. -/
theorem derIntTo32_normalizes (arr : List Nat)
    (h : (derStripped arr).length ≤ 32) :
    ∃ out, derIntTo32 arr = some out ∧
      out = List.replicate (32 - (derStripped arr).length) 0 ++ derStripped arr ∧
      out.length = 32 ∧ beVal out = beVal arr := by
  refine ⟨List.replicate (32 - (derStripped arr).length) 0 ++ derStripped arr,
    ?_, rfl, ?_, ?_⟩
  · unfold derIntTo32
    rw [show (if arr.head? = some 0 then arr.tail else arr) = derStripped arr from rfl]
    by_cases h32 : (derStripped arr).length = 32
    · simp [h32]
    · have hlt : (derStripped arr).length < 32 := lt_of_le_of_ne h h32
      simp [h32, hlt]
  · simp only [List.length_append, List.length_replicate]
    omega
  · rw [beVal_replicate_zero, beVal_derStripped]

/-- Witness for derIntTo32_normalizes at the two-byte input 00 ff. -/
theorem derIntTo32_normalizes_witness :
    (derStripped [0, 255]).length ≤ 32 ∧
    ∃ out, derIntTo32 [0, 255] = some out ∧
      out = List.replicate (32 - (derStripped [0, 255]).length) 0 ++ derStripped [0, 255] ∧
      out.length = 32 ∧ beVal out = beVal [0, 255] :=
  ⟨by decide, derIntTo32_normalizes [0, 255] (by decide)⟩

/-- C10: prepareHash applies keccak to the hex-decoded signData exactly
when dataType is 1 or 4, and passes the decoded bytes through unchanged
for every other (or absent) dataType. -/
theorem prepareHash_hash_selection (keccak : List Nat → List Nat)
    (signData : String) (dataType : Option Nat) :
    (dataType = some 1 →
      prepareHash keccak signData dataType = keccak (bufferFromHex signData)) ∧
    (dataType = some 4 →
      prepareHash keccak signData dataType = keccak (bufferFromHex signData)) ∧
    (∀ n, dataType = some n → n ≠ 1 → n ≠ 4 →
      prepareHash keccak signData dataType = bufferFromHex signData) ∧
    (dataType = none →
      prepareHash keccak signData dataType = bufferFromHex signData) := by
  refine ⟨?_, ?_, ?_, ?_⟩
  · intro h; subst h; simp [prepareHash]
  · intro h; subst h; simp [prepareHash]
  · intro n h hn1 hn4; subst h; simp [prepareHash, hn1, hn4]
  · intro h; subst h; simp [prepareHash]

/-- Witness for prepareHash_hash_selection: dataType 3 passes bytes
through, dataType 1 hashes. -/
theorem prepareHash_hash_selection_witness :
    prepareHash (fun l => 99 :: l) "aabb" (some 3) = bufferFromHex ("aabb") ∧
    prepareHash (fun l => 99 :: l) "aabb" (some 1) =
      (fun l => 99 :: l) (bufferFromHex ("aabb")) :=
  ⟨(prepareHash_hash_selection _ _ _).2.2.1 3 rfl (by decide) (by decide),
   (prepareHash_hash_selection _ _ _).1 rfl⟩

/-- C5 counterexample: a numeric dataType outside the defined enum (7)
is kept verbatim by parseEthSignRequest, not defaulted to LegacyTx = 1. -/
theorem parseEthSignRequest_dataType_counterexample :
    (parseEthSignRequest (JSVal.obj [(2, JSVal.bytes [170]), (3, JSVal.num 7)])).dataType = 7 ∧
    (parseEthSignRequest (JSVal.obj [(2, JSVal.bytes [170]), (3, JSVal.num 7)])).dataType ≠ 1 := by
  exact ⟨rfl, by decide⟩

/-- C5 amended: dataType defaults to 1 exactly when the decoded field is
not a number; any numeric value — inside the enum or not — is kept
as-is. -/
theorem parseEthSignRequest_dataType_default (d : JSVal) :
    ((∀ n : Int, jsIndex d 3 ≠ JSVal.num n) → (parseEthSignRequest d).dataType = 1) ∧
    (∀ n : Int, jsIndex d 3 = JSVal.num n → (parseEthSignRequest d).dataType = n) := by
  have hproj : (parseEthSignRequest d).dataType =
      match jsIndex d 3 with
      | JSVal.num n => n
      | _ => (1 : Int) := rfl
  constructor
  · intro h
    rw [hproj]
    cases hx : jsIndex d 3 <;> first | rfl | exact absurd hx (h _)
  · intro n hx
    rw [hproj, hx]

/-- Witness for parseEthSignRequest_dataType_default: a numeric field 2
is kept. -/
theorem parseEthSignRequest_dataType_default_witness :
    (parseEthSignRequest (JSVal.obj [(3, JSVal.num 2)])).dataType = 2 :=
  (parseEthSignRequest_dataType_default _).2 2 rfl

theorem parseDerivationPath_eq (t : JSVal) :
    parseDerivationPath t =
      match pathComponents t with
      | some l => "m/" ++ String.intercalate ("/") (renderComponents l)
      | none => "unknown" := by
  unfold parseDerivationPath pathComponents
  by_cases hg : ¬ truthy (pathMapOf t) ∨ ¬ typeofObject (pathMapOf t)
  · rw [if_pos hg, if_pos hg]
  · rw [if_neg hg, if_neg hg]
    cases hc : componentsRead t <;> rfl

/-- C4 counterexample: a structurally valid derivation-path field whose
component array is empty decodes to the path m/ — not to the sentinel
unknown. -/
theorem parseDerivationPath_empty_counterexample :
    (parseEthSignRequest (JSVal.obj [(2, JSVal.bytes [170]),
      (5, JSVal.tagged 304 (JSVal.obj [(1, JSVal.arr [])]))])).derivationPath = "m/" ∧
    (parseEthSignRequest (JSVal.obj [(2, JSVal.bytes [170]),
      (5, JSVal.tagged 304 (JSVal.obj [(1, JSVal.arr [])]))])).derivationPath ≠ "unknown" := by
  exact ⟨rfl, by decide⟩

/-- C4 amended: an absent or structurally malformed derivation-path
field (no unwrappable object, or a component field that is not an array)
decodes to the sentinel unknown and never to an error (the decoder is a
total function); an empty component array, however, decodes to the
zero-segment path m/. -/
theorem parseDerivationPath_sentinel (d : JSVal) :
    (pathComponents (jsIndex d 5) = none →
      (parseEthSignRequest d).derivationPath = "unknown") ∧
    (∀ l, pathComponents (jsIndex d 5) = some l →
      (parseEthSignRequest d).derivationPath =
        "m/" ++ String.intercalate ("/") (renderComponents l)) ∧
    (pathComponents (jsIndex d 5) = some [] →
      (parseEthSignRequest d).derivationPath = "m/") := by
  have hproj : (parseEthSignRequest d).derivationPath =
      parseDerivationPath (jsIndex d 5) := rfl
  refine ⟨?_, ?_, ?_⟩
  · intro h
    rw [hproj, parseDerivationPath_eq, h]
  · intro l h
    rw [hproj, parseDerivationPath_eq, h]
  · intro h
    rw [hproj, parseDerivationPath_eq, h]
    rfl

/-- Witness for parseDerivationPath_sentinel: an absent path field gives
the sentinel, and a one-pair component list renders one hardened
segment. -/
theorem parseDerivationPath_sentinel_witness :
    (parseEthSignRequest (JSVal.obj [(2, JSVal.bytes [170])])).derivationPath = "unknown" ∧
    (parseEthSignRequest (JSVal.obj [(5, JSVal.tagged 304
        (JSVal.obj [(1, JSVal.arr [JSVal.num 44, JSVal.bool true])]))])).derivationPath =
      "m/" ++ String.intercalate ("/")
        (renderComponents [JSVal.num 44, JSVal.bool true]) :=
  ⟨(parseDerivationPath_sentinel _).1 rfl,
   (parseDerivationPath_sentinel _).2.1 [JSVal.num 44, JSVal.bool true] rfl⟩

/-- C8: a disconnect event always clears the channel reference; in phase
nfc it refreshes the status and keeps the phase at nfc; in every other
phase it changes neither the status nor the phase. -/
theorem handleCardDisconnected_frame (s : SessionState) :
    (handleCardDisconnected s).cmdSet = false ∧
    (s.phase = Phase.nfc →
      (handleCardDisconnected s).phase = Phase.nfc ∧
      (handleCardDisconnected s).status = "Card removed — tap again") ∧
    (s.phase ≠ Phase.nfc →
      (handleCardDisconnected s).status = s.status ∧
      (handleCardDisconnected s).phase = s.phase) := by
  unfold handleCardDisconnected
  by_cases h : s.phase = Phase.nfc <;> simp [h]

/-- Witness for handleCardDisconnected_frame at an nfc-phase state. -/
theorem handleCardDisconnected_frame_witness :
    (handleCardDisconnected wNfcState).phase = Phase.nfc ∧
    (handleCardDisconnected wNfcState).status = "Card removed — tap again" :=
  (handleCardDisconnected_frame wNfcState).2.1 rfl

/-- C2 counterexample: when PIN verification fails, the handler exits to
the error phase with the PIN still buffered — the buffer is not cleared
on the failure path. -/
theorem handleCardConnected_pin_retained_counterexample :
    (handleCardConnected wEnvPinFail wNfcState).pin = "123456" ∧
    (handleCardConnected wEnvPinFail wNfcState).phase = Phase.error ∧
    (handleCardConnected wEnvPinFail wNfcState).pin ≠ "" := by
  exact ⟨rfl, rfl, by decide⟩

/-- C2 amended: when PIN verification is required and succeeds, the PIN
buffer is cleared immediately — before the operation closure runs, and
regardless of its outcome; when the verification attempt fails, the
handler exits to the error phase with the PIN buffer unchanged. -/
theorem handleCardConnected_pin_clearing (env : CardEnv) (s : SessionState)
    (hsw : env.selectOutcome = Except.ok 0x9000)
    (hinfo : env.hasAppInfo = true)
    (hopen : env.openChannelOutcome = Except.ok ())
    (hpin : s.requiresPin = true)
    (hpair : env.pairingFound = true ∨
      (env.autoPairOutcome = Except.ok () ∧ env.savePairingOutcome = Except.ok ())) :
    (env.verifyOutcome = Except.ok () → (handleCardConnected env s).pin = "") ∧
    (∀ m, env.verifyOutcome = Except.error m →
      (handleCardConnected env s).pin = s.pin ∧
      (handleCardConnected env s).phase = Phase.error) := by
  unfold handleCardConnected afterPairing runOperation connFail
  rcases hpair with hp | ⟨ha, hsv⟩
  · constructor
    · intro hv
      simp [hsw, hinfo, hopen, hpin, hp, hv]
      split
      · simp
      · cases env.opOutcome <;> simp
    · intro m hv
      simp [hsw, hinfo, hopen, hpin, hp, hv]
  · constructor
    · intro hv
      simp [hsw, hinfo, hopen, hpin, ha, hsv, hv]
      split
      · simp
      · cases env.opOutcome <;> simp
    · intro m hv
      simp [hsw, hinfo, hopen, hpin, ha, hsv, hv]

/-- Witness for handleCardConnected_pin_clearing on the all-success
environment. -/
theorem handleCardConnected_pin_clearing_witness :
    (handleCardConnected wEnvAllOk wNfcState).pin = "" :=
  (handleCardConnected_pin_clearing wEnvAllOk wNfcState rfl rfl rfl rfl (Or.inl rfl)).1 rfl

theorem findRecId_ok (recover : List Nat → List Nat → Except String (List Nat))
    (compact hash compressed : List Nat) (i : Nat)
    (h : findRecId recover compact hash compressed = Except.ok i) :
    (i = 0 ∧ recover (0 :: compact) hash = Except.ok compressed) ∨
    (i = 1 ∧ recover (1 :: compact) hash = Except.ok compressed) := by
  unfold findRecId at h
  cases h0 : recover (0 :: compact) hash with
  | error m => simp only [h0] at h; exact Except.noConfusion h
  | ok c0 =>
    simp only [h0] at h
    by_cases hc0 : c0 = compressed
    · rw [if_pos hc0] at h
      injection h with h
      exact Or.inl ⟨h.symm, by rw [hc0]⟩
    · rw [if_neg hc0] at h
      cases h1 : recover (1 :: compact) hash with
      | error m => simp only [h1] at h; exact Except.noConfusion h
      | ok c1 =>
        simp only [h1] at h
        by_cases hc1 : c1 = compressed
        · rw [if_pos hc1] at h
          injection h with h
          exact Or.inr ⟨h.symm, by rw [hc1]⟩
        · rw [if_neg hc1] at h
          exact Except.noConfusion h

theorem findRecId_no_match (recover : List Nat → List Nat → Except String (List Nat))
    (compact hash compressed c0 c1 : List Nat)
    (h0 : recover (0 :: compact) hash = Except.ok c0) (hne0 : c0 ≠ compressed)
    (h1 : recover (1 :: compact) hash = Except.ok c1) (hne1 : c1 ≠ compressed) :
    findRecId recover compact hash compressed =
      Except.error ("[ethSignature] Cannot determine recovery ID") := by
  unfold findRecId
  simp only [h0, h1]
  rw [if_neg hne0, if_neg hne1]

theorem buildEthSignatureUR_ok_inv
    (recover : List Nat → List Nat → Except String (List Nat))
    (pubKeyRaw rDer sDer hash : List Nat) (dataType chainId : Option Nat)
    (requestId : Option String) (res : EthSigResult)
    (h : buildEthSignatureUR recover pubKeyRaw rDer sDer hash dataType chainId
      requestId = Except.ok res) :
    ∃ r s, derIntTo32 rDer = some r ∧ derIntTo32 sDer = some s ∧
      res.r = r ∧ res.s = s ∧
      findRecId recover (r ++ s) hash (compressPubKey pubKeyRaw) =
        Except.ok res.recId ∧
      res.v = computeV dataType chainId res.recId := by
  unfold buildEthSignatureUR at h
  cases hr : derIntTo32 rDer with
  | none => simp only [hr] at h; exact Except.noConfusion h
  | some r =>
    simp only [hr] at h
    cases hs : derIntTo32 sDer with
    | none => simp only [hs] at h; exact Except.noConfusion h
    | some s =>
      simp only [hs] at h
      cases hf : findRecId recover (r ++ s) hash (compressPubKey pubKeyRaw) with
      | error m => simp only [hf] at h; exact Except.noConfusion h
      | ok recId =>
        simp only [hf] at h
        cases hb : buildCbor (r ++ s ++ encodeV (computeV dataType chainId recId))
            requestId with
        | none => simp only [hb] at h; exact Except.noConfusion h
        | some cbor =>
          simp only [hb] at h
          injection h with h
          subst h
          exact ⟨r, s, rfl, rfl, rfl, rfl, hf, rfl⟩

/-- C1: every successfully assembled signature carries the recovery byte
v = 35 + 2 * chainId + recId for dataType 1 (chainId read as 0 when
absent), v = recId (0 or 1, no offset) for dataType 4, and
v = 27 + recId for dataType 2, 3, any other value, or an absent
dataType. -/
theorem buildEthSignatureUR_v_formula
    (recover : List Nat → List Nat → Except String (List Nat))
    (pubKeyRaw rDer sDer hash : List Nat) (dataType chainId : Option Nat)
    (requestId : Option String) (res : EthSigResult)
    (h : buildEthSignatureUR recover pubKeyRaw rDer sDer hash dataType chainId
      requestId = Except.ok res) :
    (dataType = some 1 → res.v = 35 + 2 * chainId.getD 0 + res.recId) ∧
    (dataType = some 4 → res.v = res.recId ∧ res.recId ≤ 1) ∧
    (∀ n, dataType = some n → n ≠ 1 → n ≠ 4 → res.v = 27 + res.recId) ∧
    (dataType = none → res.v = 27 + res.recId) := by
  obtain ⟨r, s, hr, hs, hrr, hss, hf, hv⟩ :=
    buildEthSignatureUR_ok_inv recover pubKeyRaw rDer sDer hash dataType chainId
      requestId res h
  have hcases := findRecId_ok recover (r ++ s) hash (compressPubKey pubKeyRaw)
    res.recId hf
  refine ⟨?_, ?_, ?_, ?_⟩
  · intro hd; subst hd; rw [hv]; rfl
  · intro hd; subst hd
    refine ⟨by rw [hv]; rfl, ?_⟩
    rcases hcases with ⟨h0, _⟩ | ⟨h1, _⟩ <;> omega
  · intro n hd hn1 hn4; subst hd
    rw [hv]
    simp [computeV, hn1, hn4]
  · intro hd; subst hd; rw [hv]; rfl

/-- Witness for buildEthSignatureUR_v_formula on the dataType 1,
chainId 5 fixture. -/
theorem buildEthSignatureUR_v_formula_witness :
    buildEthSignatureUR wRecoverMatch0 wPub [1] [2] wHash (some 1) (some 5) none =
      Except.ok wSigResult ∧
    wSigResult.v = 35 + 2 * 5 + wSigResult.recId := by
  have hEq : buildEthSignatureUR wRecoverMatch0 wPub [1] [2] wHash (some 1)
      (some 5) none = Except.ok wSigResult := rfl
  exact ⟨hEq, (buildEthSignatureUR_v_formula wRecoverMatch0 wPub [1] [2] wHash
    (some 1) (some 5) none wSigResult hEq).1 rfl⟩

/-- C3: with both trial recoveries succeeding but neither recovered key
matching the compressed TLV public key, assembly throws the hard
cannot-determine-recovery-id error; and every successful assembly has a
recId in 0..1 whose trial recovery returned exactly the compressed TLV
public key. -/
theorem buildEthSignatureUR_recovery_trial
    (recover : List Nat → List Nat → Except String (List Nat))
    (pubKeyRaw rDer sDer hash : List Nat) (dataType chainId : Option Nat)
    (requestId : Option String) (r s : List Nat)
    (hr : derIntTo32 rDer = some r) (hs : derIntTo32 sDer = some s) :
    (∀ c0 c1, recover (0 :: (r ++ s)) hash = Except.ok c0 →
      c0 ≠ compressPubKey pubKeyRaw →
      recover (1 :: (r ++ s)) hash = Except.ok c1 →
      c1 ≠ compressPubKey pubKeyRaw →
      buildEthSignatureUR recover pubKeyRaw rDer sDer hash dataType chainId
        requestId = Except.error ("[ethSignature] Cannot determine recovery ID")) ∧
    (∀ res, buildEthSignatureUR recover pubKeyRaw rDer sDer hash dataType chainId
        requestId = Except.ok res →
      recover (res.recId :: (r ++ s)) hash =
        Except.ok (compressPubKey pubKeyRaw) ∧
      (res.recId = 0 ∨ res.recId = 1)) := by
  constructor
  · intro c0 c1 h0 hne0 h1 hne1
    unfold buildEthSignatureUR
    simp only [hr, hs]
    rw [findRecId_no_match recover (r ++ s) hash (compressPubKey pubKeyRaw) c0 c1
        h0 hne0 h1 hne1]
  · intro res h
    obtain ⟨r2, s2, hr2, hs2, hrr, hss, hf, hv⟩ :=
      buildEthSignatureUR_ok_inv recover pubKeyRaw rDer sDer hash dataType chainId
        requestId res h
    have hre : r2 = r := by rw [hr] at hr2; exact (Option.some.inj hr2).symm
    have hse : s2 = s := by rw [hs] at hs2; exact (Option.some.inj hs2).symm
    rw [hre, hse] at hf
    rcases findRecId_ok recover (r ++ s) hash (compressPubKey pubKeyRaw)
      res.recId hf with ⟨h0, hrec⟩ | ⟨h1, hrec⟩
    · rw [h0]; exact ⟨hrec, Or.inl rfl⟩
    · rw [h1]; exact ⟨hrec, Or.inr rfl⟩

/-- Witness for buildEthSignatureUR_recovery_trial: the no-match oracle
yields the hard error, the matching oracle yields recId 0 with the
matching recovery. -/
theorem buildEthSignatureUR_recovery_trial_witness :
    buildEthSignatureUR wRecoverNoMatch wPub [1] [2] wHash (some 1) (some 5) none =
      Except.error ("[ethSignature] Cannot determine recovery ID") ∧
    (wRecoverMatch0 (wSigResult.recId :: (wSigResult.r ++ wSigResult.s)) wHash =
      Except.ok (compressPubKey wPub) ∧
      (wSigResult.recId = 0 ∨ wSigResult.recId = 1)) := by
  have hr : derIntTo32 [1] = some (List.replicate 31 0 ++ [1]) := rfl
  have hs : derIntTo32 [2] = some (List.replicate 31 0 ++ [2]) := rfl
  have hEq : buildEthSignatureUR wRecoverMatch0 wPub [1] [2] wHash (some 1)
      (some 5) none = Except.ok wSigResult := rfl
  constructor
  · exact (buildEthSignatureUR_recovery_trial wRecoverNoMatch wPub [1] [2] wHash
      (some 1) (some 5) none _ _ hr hs).1 [9] [9] rfl (by decide) rfl (by decide)
  · exact (buildEthSignatureUR_recovery_trial wRecoverMatch0 wPub [1] [2] wHash
      (some 1) (some 5) none _ _ hr hs).2 wSigResult hEq

/-! ## Decoding lemmas for the response map -/

theorem takeN_exact (a b : List Nat) : takeN a.length (a ++ b) = some (a, b) := by
  simp [takeN, List.take_left, List.drop_left]

theorem decodePrim_bytes (d rest : List Nat) (h : d.length ≤ 0xffff) :
    decodePrim (cborBytes d ++ rest) = some (CborVal.bytes d, rest) := by
  unfold cborBytes
  by_cases h1 : d.length ≤ 23
  · rw [if_pos h1,
      show ([0x40 + d.length] ++ d) ++ rest = (0x40 + d.length) :: (d ++ rest) by
        simp]
    simp only [decodePrim]
    rw [if_pos (by omega : 0x40 ≤ 0x40 + d.length ∧ 0x40 + d.length ≤ 0x57),
      show 0x40 + d.length - 0x40 = d.length by omega, takeN_exact]
    rfl
  · by_cases h2 : d.length ≤ 0xff
    · rw [if_neg h1, if_pos h2,
        show ([0x58, d.length] ++ d) ++ rest = 0x58 :: (d.length :: (d ++ rest)) by
          simp]
      simp only [decodePrim, if_true]
      rw [takeN_exact]
      rfl
    · rw [if_neg h1, if_neg h2,
        show ([0x59, d.length / 256 % 256, d.length % 256] ++ d) ++ rest =
          0x59 :: (d.length / 256 % 256 :: (d.length % 256 :: (d ++ rest))) by simp]
      simp only [decodePrim, if_true]
      rw [show d.length / 256 % 256 * 256 + d.length % 256 = d.length by omega,
        takeN_exact]
      rfl

theorem decodeItem_eq_decodePrim (l : List Nat) (hb : l.head? ≠ some 0xd8) :
    decodeItem l = decodePrim l := by
  cases l with
  | nil => rfl
  | cons b t =>
    have hbn : b ≠ 0xd8 := by
      intro hcontra
      exact hb (by rw [hcontra]; rfl)
    simp only [decodeItem, if_neg hbn]

theorem cborBytes_head_ne (d rest : List Nat) :
    (cborBytes d ++ rest).head? ≠ some 0xd8 := by
  unfold cborBytes
  by_cases h1 : d.length ≤ 23
  · rw [if_pos h1]
    simp only [List.cons_append, List.head?_cons, List.nil_append]
    intro hcontra
    have := Option.some.inj hcontra
    omega
  · by_cases h2 : d.length ≤ 0xff
    · rw [if_neg h1, if_pos h2]; simp
    · rw [if_neg h1, if_neg h2]; simp

theorem decodeItem_bytes (d rest : List Nat) (h : d.length ≤ 0xffff) :
    decodeItem (cborBytes d ++ rest) = some (CborVal.bytes d, rest) := by
  rw [decodeItem_eq_decodePrim _ (cborBytes_head_ne d rest)]
  exact decodePrim_bytes d rest h

theorem decodePrim_text_small (t rest : List Nat) (h : t.length ≤ 23) :
    decodePrim (cborText t ++ rest) = some (CborVal.text t, rest) := by
  unfold cborText
  rw [if_pos h,
    show ([0x60 + t.length] ++ t) ++ rest = (0x60 + t.length) :: (t ++ rest) by simp]
  simp only [decodePrim]
  rw [if_neg (by omega : ¬ (0x40 ≤ 0x60 + t.length ∧ 0x60 + t.length ≤ 0x57)),
    if_neg (by omega : ¬ (0x60 + t.length = 0x58)),
    if_neg (by omega : ¬ (0x60 + t.length = 0x59)),
    if_pos (by omega : 0x60 ≤ 0x60 + t.length ∧ 0x60 + t.length ≤ 0x77),
    show 0x60 + t.length - 0x60 = t.length by omega, takeN_exact]
  rfl

theorem decodeItem_text_small (t rest : List Nat) (h : t.length ≤ 23) :
    decodeItem (cborText t ++ rest) = some (CborVal.text t, rest) := by
  rw [decodeItem_eq_decodePrim]
  · exact decodePrim_text_small t rest h
  · unfold cborText
    rw [if_pos h]
    simp only [List.cons_append, List.head?_cons, List.nil_append]
    intro hcontra
    have := Option.some.inj hcontra
    omega

theorem decodeItem_tag37 (u rest : List Nat) (h : u.length ≤ 0xffff) :
    decodeItem (cborTag37Bytes u ++ rest) =
      some (CborVal.tagged 0x25 (CborVal.bytes u), rest) := by
  unfold cborTag37Bytes
  rw [show ([0xd8, 0x25] ++ cborBytes u) ++ rest =
    0xd8 :: (0x25 :: (cborBytes u ++ rest)) by simp]
  simp only [decodeItem, if_pos (rfl : (0xd8 : Nat) = 0xd8)]
  rw [decodePrim_bytes u rest h]
  rfl

theorem decodeUintKey_small (k : Nat) (l : List Nat) (hk : k ≤ 23) :
    decodeUintKey (k :: l) = some (k, l) := by
  simp [decodeUintKey, hk]

theorem decodeResponseMap_noid (sig : List Nat) (hsig : sig.length ≤ 0xffff) :
    decodeResponseMap ([0xa0 + 2] ++ cborUint 2 ++ cborBytes sig ++ cborUint 3 ++
        cborText gapSignOrigin) =
      some [(2, CborVal.bytes sig), (3, CborVal.text gapSignOrigin)] := by
  have horigin : decodeItem (cborText gapSignOrigin) =
      some (CborVal.text gapSignOrigin, []) := by
    have := decodeItem_text_small gapSignOrigin [] (by decide)
    rwa [List.append_nil] at this
  have hitem := decodeItem_bytes sig (3 :: cborText gapSignOrigin) hsig
  rw [show [0xa0 + 2] ++ cborUint 2 ++ cborBytes sig ++ cborUint 3 ++
      cborText gapSignOrigin =
      0xa2 :: (2 :: (cborBytes sig ++ (3 :: cborText gapSignOrigin))) by
    simp [cborUint]]
  simp [decodeResponseMap, decodePairs, decodeUintKey, hitem, horigin]

theorem decodeResponseMap_withid (sig idb : List Nat)
    (hsig : sig.length ≤ 0xffff) (hid : idb.length ≤ 0xffff) :
    decodeResponseMap ([0xa0 + 3] ++ cborUint 1 ++ cborTag37Bytes idb ++
        cborUint 2 ++ cborBytes sig ++ cborUint 3 ++ cborText gapSignOrigin) =
      some [(1, CborVal.tagged 0x25 (CborVal.bytes idb)),
        (2, CborVal.bytes sig), (3, CborVal.text gapSignOrigin)] := by
  have horigin : decodeItem (cborText gapSignOrigin) =
      some (CborVal.text gapSignOrigin, []) := by
    have := decodeItem_text_small gapSignOrigin [] (by decide)
    rwa [List.append_nil] at this
  have hitem := decodeItem_bytes sig (3 :: cborText gapSignOrigin) hsig
  have htag := decodeItem_tag37 idb
    (2 :: (cborBytes sig ++ (3 :: cborText gapSignOrigin))) hid
  rw [show [0xa0 + 3] ++ cborUint 1 ++ cborTag37Bytes idb ++ cborUint 2 ++
      cborBytes sig ++ cborUint 3 ++ cborText gapSignOrigin =
      0xa3 :: (1 :: (cborTag37Bytes idb ++
        (2 :: (cborBytes sig ++ (3 :: cborText gapSignOrigin))))) by
    simp [cborUint, cborTag37Bytes]]
  simp [decodeResponseMap, decodePairs, decodeUintKey, htag, hitem, horigin]

theorem hexPairsToBytes_length_le : ∀ l : List Nat,
    (hexPairsToBytes l).length ≤ l.length
  | [] => by simp [hexPairsToBytes]
  | [c] => by simp [hexPairsToBytes]
  | c1 :: c2 :: rest => by
    simp only [hexPairsToBytes, List.length_cons]
    have ih := hexPairsToBytes_length_le rest
    omega

theorem uuidToBytes_length_le (u : String) (idb : List Nat)
    (h : uuidToBytes u = some idb) : idb.length ≤ u.length := by
  unfold uuidToBytes hexToBytes at h
  by_cases hpar : (((String.mk (u.toList.filter (fun c => c.toNat ≠ 45))).toList.map
      Char.toNat).length % 2 = 0)
  · rw [if_pos hpar] at h
    injection h with h
    calc idb.length
        = (hexPairsToBytes ((String.mk (u.toList.filter
            (fun c => c.toNat ≠ 45))).toList.map Char.toNat)).length := by rw [h]
      _ ≤ ((String.mk (u.toList.filter (fun c => c.toNat ≠ 45))).toList.map
            Char.toNat).length := hexPairsToBytes_length_le _
      _ = (u.toList.filter (fun c => c.toNat ≠ 45)).length := by
            simp [String.toList]
      _ ≤ u.toList.length := List.length_filter_le _ _
      _ = u.length := rfl
  · rw [if_neg hpar] at h
    exact Option.noConfusion h

theorem encodeV_length_le (v : Nat) : (encodeV v).length ≤ 4 := by
  unfold encodeV
  split
  · simp
  · split
    · simp
    · split <;> simp

/-- Shared decode helper: the two shapes buildCbor can produce, decoded
back by the binary-map rules. -/
theorem buildCbor_decode (sig : List Nat) (rid : Option String) (cbor : List Nat)
    (hsig : sig.length ≤ 0xffff) (hrid : ∀ u, rid = some u → u.length ≤ 0xffff)
    (h : buildCbor sig rid = some cbor) :
    (hasRequestId rid = false →
      decodeResponseMap cbor =
        some [(2, CborVal.bytes sig), (3, CborVal.text gapSignOrigin)] ∧
      cbor.head? = some (0xa0 + 2)) ∧
    (hasRequestId rid = true →
      ∃ idb, uuidToBytes (rid.getD ("")) = some idb ∧
        decodeResponseMap cbor =
          some [(1, CborVal.tagged 0x25 (CborVal.bytes idb)),
            (2, CborVal.bytes sig), (3, CborVal.text gapSignOrigin)] ∧
        cbor.head? = some (0xa0 + 3)) := by
  unfold buildCbor at h
  by_cases hR : hasRequestId rid = true
  · rw [if_pos hR] at h
    cases hu : uuidToBytes (rid.getD ("")) with
    | none => rw [hu] at h; exact Option.noConfusion h
    | some idb =>
      rw [hu] at h
      injection h with h
      constructor
      · intro hc; rw [hR] at hc; exact Bool.noConfusion hc
      · intro _
        obtain ⟨u, hu2⟩ : ∃ u, rid = some u := by
          cases rid with
          | none => simp [hasRequestId] at hR
          | some u => exact ⟨u, rfl⟩
        have hub : u.length ≤ 0xffff := hrid u hu2
        have hgd : rid.getD ("") = u := by rw [hu2]; rfl
        have hidb : idb.length ≤ 0xffff := by
          have := uuidToBytes_length_le u idb (by rw [← hgd]; exact hu)
          omega
        refine ⟨idb, rfl, ?_, ?_⟩
        · rw [← h]
          exact decodeResponseMap_withid sig idb hsig hidb
        · rw [← h]; rfl
  · rw [if_neg hR] at h
    injection h with h
    constructor
    · intro _
      refine ⟨?_, ?_⟩
      · rw [← h]
        exact decodeResponseMap_noid sig hsig
      · rw [← h]; rfl
    · intro hc
      exact absurd hc hR

/-- C7: the serialized response map always holds key 2 with the signature
bytes r‖s‖v and key 3 with the fixed GapSign origin text; key 1, the
tagged UUID request id, is present exactly when a non-empty requestId was
provided; the declared map size (the header byte) is a0+3 with the id
present and a0+2 without. -/
theorem buildCbor_response_structure (sig : List Nat) (rid : Option String)
    (cbor : List Nat) (hsig : sig.length ≤ 0xffff)
    (hrid : ∀ u, rid = some u → u.length ≤ 0xffff)
    (h : buildCbor sig rid = some cbor) :
    (hasRequestId rid = false →
      decodeResponseMap cbor =
        some [(2, CborVal.bytes sig), (3, CborVal.text gapSignOrigin)] ∧
      cbor.head? = some (0xa0 + 2)) ∧
    (hasRequestId rid = true →
      ∃ idb, uuidToBytes (rid.getD ("")) = some idb ∧
        decodeResponseMap cbor =
          some [(1, CborVal.tagged 0x25 (CborVal.bytes idb)),
            (2, CborVal.bytes sig), (3, CborVal.text gapSignOrigin)] ∧
        cbor.head? = some (0xa0 + 3)) :=
  buildCbor_decode sig rid cbor hsig hrid h

/-- Witness for buildCbor_response_structure on the no-request-id
fixture. -/
theorem buildCbor_response_structure_witness :
    decodeResponseMap w7cbor =
      some [(2, CborVal.bytes (w6r ++ w6s ++ encodeV 0)),
        (3, CborVal.text gapSignOrigin)] ∧
    w7cbor.head? = some (0xa0 + 2) :=
  (buildCbor_response_structure (w6r ++ w6s ++ encodeV 0) none w7cbor (by decide)
    (fun u h => Option.noConfusion h) rfl).1 rfl

/-- C6: serializing a response for any 32-byte r and s, any v, and an
optional (UUID-sized) requestId, then decoding the bytes by the same
binary-map rules, recovers the signature byte string r‖s‖v under key 2
and the origin constant under key 3 unchanged, with r, s, and the encoded
v recoverable from the fixed 32-byte offsets. -/
theorem buildCbor_roundtrip (r s : List Nat) (v : Nat) (rid : Option String)
    (cbor : List Nat) (hr : r.length = 32) (hs : s.length = 32)
    (hrid : ∀ u, rid = some u → u.length ≤ 0xffff)
    (h : buildCbor (r ++ s ++ encodeV v) rid = some cbor) :
    ∃ ps, decodeResponseMap cbor = some ps ∧
      ps.lookup 2 = some (CborVal.bytes (r ++ s ++ encodeV v)) ∧
      ps.lookup 3 = some (CborVal.text gapSignOrigin) ∧
      (r ++ s ++ encodeV v).take 32 = r ∧
      ((r ++ s ++ encodeV v).drop 32).take 32 = s ∧
      (r ++ s ++ encodeV v).drop 64 = encodeV v := by
  have hsig : (r ++ s ++ encodeV v).length ≤ 0xffff := by
    have := encodeV_length_le v
    simp only [List.length_append, hr, hs]
    omega
  have hd := buildCbor_decode (r ++ s ++ encodeV v) rid cbor hsig hrid h
  have htake1 : (r ++ s ++ encodeV v).take 32 = r := by
    rw [List.append_assoc, ← hr, List.take_left]
  have hdrop : (r ++ s ++ encodeV v).drop 32 = s ++ encodeV v := by
    rw [List.append_assoc, ← hr, List.drop_left]
  have htake2 : ((r ++ s ++ encodeV v).drop 32).take 32 = s := by
    rw [hdrop, ← hs, List.take_left]
  have hdrop64 : (r ++ s ++ encodeV v).drop 64 = encodeV v := by
    have hl : (r ++ s).length = 64 := by simp [hr, hs]
    rw [show (64 : Nat) = (r ++ s).length from hl.symm, List.drop_left]
  cases hR : hasRequestId rid with
  | false =>
    obtain ⟨hm, _⟩ := hd.1 hR
    exact ⟨_, hm, by simp [List.lookup], by simp [List.lookup], htake1, htake2,
      hdrop64⟩
  | true =>
    obtain ⟨idb, _, hm, _⟩ := hd.2 hR
    exact ⟨_, hm, by simp [List.lookup], by simp [List.lookup], htake1, htake2,
      hdrop64⟩

/-- Witness for buildCbor_roundtrip on the 16-byte-UUID fixture. -/
theorem buildCbor_roundtrip_witness :
    ∃ ps, decodeResponseMap w6cbor = some ps ∧
      ps.lookup 2 = some (CborVal.bytes (w6r ++ w6s ++ encodeV 27)) ∧
      ps.lookup 3 = some (CborVal.text gapSignOrigin) ∧
      (w6r ++ w6s ++ encodeV 27).take 32 = w6r ∧
      ((w6r ++ w6s ++ encodeV 27).drop 32).take 32 = w6s ∧
      (w6r ++ w6s ++ encodeV 27).drop 64 = encodeV 27 :=
  buildCbor_roundtrip w6r w6s 27 (some w6uuid) w6cbor (by decide) (by decide)
    (fun u h => by
      injection h with h
      exact h ▸ (by decide : w6uuid.length ≤ 0xffff)) rfl

end GapSign
